import Mathlib

/-!
Verification of the wireconf backend against its specification.

Each definition below is a shallow embedding of a function of the Python
sources under src/backend/app/.  Pure functions become Lean functions;
stateful code (the SafetyManager) becomes explicit state passing over a
state record; file-system side effects become explicit operation traces;
fallible code returns Option/Except.  Machine integers are Nat/Int.
-/

/- ## IPManager (src/backend/app/ip_manager.py) -/

/-- Embedding of the loop `for i in range(start, start+fuel): if i not in pool:
return i` from `IPManager.find_next_available_octet`; the `pool` is the union
(as a concatenated list) of used and excluded octets, `none` models the
exception raised when the range is exhausted. -/
def findLoop (pool : List Nat) : Nat → Nat → Option Nat
  | _, 0 => none
  | start, fuel+1 =>
    if start ∉ pool then some start else findLoop pool (start+1) fuel

/-- Embedding of `IPManager.find_next_available_octet`: the used octets come
from the database (`get_used_octets`), `exclude` is the optional argument; the
Python loop is `for i in range(2, 255)`, i.e. 253 candidates starting at 2.
`none` models the raised `Exception("No available octets ...")`. -/
def find_next_available_octet (used exclude : List Nat) : Option Nat :=
  findLoop (used ++ exclude) 2 253

theorem findLoop_some (pool : List Nat) :
    ∀ (fuel start o : Nat), findLoop pool start fuel = some o →
      start ≤ o ∧ o < start + fuel ∧ o ∉ pool ∧
      ∀ j, start ≤ j → j < o → j ∈ pool := by
  intro fuel
  induction fuel with
  | zero => intro start o h; simp [findLoop] at h
  | succ n ih =>
    intro start o h
    rw [findLoop] at h
    by_cases hs : start ∈ pool
    · rw [if_neg (not_not_intro hs)] at h
      obtain ⟨h1, h2, h3, h4⟩ := ih (start+1) o h
      refine ⟨by omega, by omega, h3, ?_⟩
      intro j hj1 hj2
      rcases Nat.eq_or_lt_of_le hj1 with rfl | hlt
      · exact hs
      · exact h4 j hlt hj2
    · rw [if_pos hs] at h
      injection h with h
      subst h
      exact ⟨Nat.le_refl _, by omega, hs,
        fun j hj1 hj2 => ((by omega : False).elim)⟩

theorem findLoop_none (pool : List Nat) :
    ∀ (fuel start : Nat), findLoop pool start fuel = none ↔
      ∀ j, start ≤ j → j < start + fuel → j ∈ pool := by
  intro fuel
  induction fuel with
  | zero =>
    intro start
    constructor
    · intro _ j hj1 hj2
      exact absurd hj2 (by omega)
    · intro _
      rfl
  | succ n ih =>
    intro start
    rw [findLoop]
    by_cases hs : start ∈ pool
    · rw [if_neg (not_not_intro hs), ih (start+1)]
      constructor
      · intro h j hj1 hj2
        rcases Nat.eq_or_lt_of_le hj1 with rfl | hlt
        · exact hs
        · exact h j hlt (by omega)
      · intro h j hj1 hj2
        exact h j (by omega) (by omega)
    · rw [if_pos hs]
      constructor
      · intro h
        exact absurd h (by simp)
      · intro h
        exact absurd (h start (Nat.le_refl _) (by omega)) hs

/-- C7: `find_next_available_octet` returns the smallest integer in [2,254]
that is in neither the used set nor the exclude set (its result is never in
used ∪ exclude), and it fails with the exhaustion error (modelled `none`)
exactly when used ∪ exclude covers all of {2,...,254}. -/
theorem find_next_available_octet_spec (used exclude : List Nat) :
    (∀ o, find_next_available_octet used exclude = some o →
      2 ≤ o ∧ o ≤ 254 ∧ o ∉ used ∧ o ∉ exclude ∧
      ∀ j, 2 ≤ j → j ≤ 254 → j ∉ used → j ∉ exclude → o ≤ j) ∧
    (find_next_available_octet used exclude = none ↔
      ∀ i, 2 ≤ i → i ≤ 254 → i ∈ used ∨ i ∈ exclude) := by
  constructor
  · intro o h
    obtain ⟨h1, h2, h3, h4⟩ := findLoop_some (used ++ exclude) 253 2 o h
    rw [List.mem_append] at h3
    push_neg at h3
    refine ⟨h1, by omega, h3.1, h3.2, ?_⟩
    intro j hj1 hj2 hju hje
    by_contra hlt
    push_neg at hlt
    have := h4 j hj1 hlt
    rw [List.mem_append] at this
    tauto
  · rw [find_next_available_octet, findLoop_none]
    constructor
    · intro h i h1 h2
      have := h i h1 (by omega)
      rw [List.mem_append] at this
      exact this
    · intro h j h1 h2
      rw [List.mem_append]
      exact h j h1 (by omega)

/-- Embedding of the octet substitution in `IPManager.validate_octet_for_network`
and `IPManager.get_client_ip`: the network address is split on `.`, its last
part replaced by the decimal octet, and re-parsed.  On the numeric value of an
IPv4 address (a Nat below 2^32) this is exactly: clear the final byte and add
the octet, provided the octet is at most 255 (a larger octet would not parse
as an IPv4 address part; `validate_octet_for_network` then returns False via
its `except ValueError` arm, which is outside the scope quantified here). -/
def substitute_last_octet (base octet : Nat) : Nat :=
  base / 256 * 256 + octet

/-- Embedding of `ipaddress`'s broadcast address of a network whose network
address is `base` with prefix length `plen`: the network address with all
host bits set. -/
def broadcast_address (base plen : Nat) : Nat :=
  base + (2 ^ (32 - plen) - 1)

/-- Embedding of `IPManager.validate_octet_for_network` for a valid IPv4
network (network address `base`, prefix length `plen`) and an octet that
parses as an address byte: the candidate is the substituted address, and the
Python code checks `candidate_ip in net` (which `ipaddress` implements as
network_address <= ip <= broadcast_address) and that the candidate equals
neither the network nor the broadcast address. -/
def validate_octet_for_network (base plen octet : Nat) : Bool :=
  let candidate := substitute_last_octet base octet
  let bc := broadcast_address base plen
  decide (base ≤ candidate) && decide (candidate ≤ bc) &&
    decide (candidate ≠ base) && decide (candidate ≠ bc)

/-- C8: for every valid IPv4 network (aligned network address below 2^32,
prefix length at most 32) and every octet in [0,255],
`validate_octet_for_network` returns true iff the address obtained by
replacing the final byte of the network address with the octet lies inside
the network and is strictly between the network and broadcast addresses
(inside the network means between them, so the conjunction is equivalent to
being strictly between them). -/
theorem validate_octet_for_network_spec (base plen octet : Nat)
    (hplen : plen ≤ 32) (hbase : base < 2 ^ 32)
    (halign : base % 2 ^ (32 - plen) = 0) (hoct : octet ≤ 255) :
    validate_octet_for_network base plen octet = true ↔
      (base < substitute_last_octet base octet ∧
       substitute_last_octet base octet < broadcast_address base plen) := by
  rw [validate_octet_for_network]
  simp only [Bool.and_eq_true, decide_eq_true_eq]
  omega

/-- C8 witness: the theorem applied to the network 10.0.1.0/24 (numeric
network address 167772416) and octet 5. -/
theorem validate_octet_for_network_spec_witness :
    validate_octet_for_network 167772416 24 5 = true ↔
      (167772416 < substitute_last_octet 167772416 5 ∧
       substitute_last_octet 167772416 5 < broadcast_address 167772416 24) :=
  validate_octet_for_network_spec 167772416 24 5 (by norm_num) (by norm_num)
    (by norm_num) (by norm_num)

/- ## SafetyManager (src/backend/app/safety_manager.py)

The manager's class attributes (`_timer`, `_transaction_id`), the sidecar
file, the domain database file and the last-known-good backup file become
one explicit state record; the armed `threading.Timer` is modelled by its
delay and the transaction id it was armed with.  Time is Int epoch seconds. -/

/-- Sidecar transaction record, as persisted by `SafetyManager._save_state`. -/
structure SidecarState where
  transaction_id : String
  status : String
  expires_at : Int
deriving DecidableEq

/-- State of the SafetyManager process plus the durable files it touches:
`db` and `lastGood` hold the contents of the database file and of the
last-known-good backup (`none` means the file does not exist), `sidecar` the
parsed sidecar record, `timer` the armed one-shot callback (delay, id). -/
structure SafetyState where
  timer : Option (Int × String)
  transactionId : Option String
  sidecar : Option SidecarState
  db : Option String
  lastGood : Option String
deriving DecidableEq

/-- Embedding of `SafetyManager.start_transaction`.  `freshId` stands for the
`uuid.uuid4()` value generated inside the critical section, `now` for
`time.time()`.  When a transaction is already pending the Python code raises
`RuntimeError` before mutating anything; otherwise it cancels any stale
timer, persists `{id, status: pending, expires_at: now+60}` to the sidecar,
arms a 60-second one-shot timer and returns the id. -/
def start_transaction (freshId : String) (now : Int) (st : SafetyState) :
    Except String String × SafetyState :=
  match st.transactionId with
  | some _ =>
    (Except.error "Global lock held: A configuration change is already being verified.", st)
  | none =>
    let expires_at := now + 60
    (Except.ok freshId,
      { st with
        timer := some (60, freshId)
        transactionId := some freshId
        sidecar := some ⟨freshId, "pending", expires_at⟩ })

/-- C3: a second `start_transaction` while one is pending fails with the
transaction-conflict error and leaves the pending id, the timer and the
persisted sidecar unchanged; with no pending transaction it persists
{id, pending, now+60} to the sidecar, arms a one-shot 60-second callback for
that id, transitions to pending and returns the generated id. -/
theorem start_transaction_spec (freshId tid : String) (now : Int)
    (timer : Option (Int × String)) (sidecar : Option SidecarState)
    (db lastGood : Option String) :
    (start_transaction freshId now ⟨timer, some tid, sidecar, db, lastGood⟩ =
      (Except.error "Global lock held: A configuration change is already being verified.",
       ⟨timer, some tid, sidecar, db, lastGood⟩)) ∧
    (start_transaction freshId now ⟨timer, none, sidecar, db, lastGood⟩ =
      (Except.ok freshId,
       ⟨some (60, freshId), some freshId, some ⟨freshId, "pending", now + 60⟩,
        db, lastGood⟩)) :=
  ⟨rfl, rfl⟩

/-- Embedding of `SafetyManager.confirm_transaction`.  `copyOk` models
whether the `shutil.copy2` promoting the current database over the
last-known-good backup succeeds; on failure the Python code prints and
continues (`# We continue because the config IS applied, just the backup is
old`). -/
def confirm_transaction (tid : String) (copyOk : Bool) (st : SafetyState) :
    Bool × SafetyState :=
  if st.transactionId = some tid then
    let st1 := { st with timer := none }
    let st2 :=
      match st1.db with
      | some dbContent => if copyOk then { st1 with lastGood := some dbContent } else st1
      | none => st1
    (true, { st2 with transactionId := none, sidecar := none })
  else (false, st)

/-- C9: confirming with the matching pending id always returns true, cancels
the timer, clears the sidecar and the pending id (IDLE) — also when the copy
of the database over the last-known-good backup fails, in which case the
backup keeps its previous content; and also when the database file does not
exist. -/
theorem confirm_transaction_spec (tid : String) (copyOk : Bool)
    (timer : Option (Int × String)) (sidecar : Option SidecarState)
    (dbContent : String) (lastGood : Option String) :
    (confirm_transaction tid copyOk ⟨timer, some tid, sidecar, some dbContent, lastGood⟩ =
      (true, ⟨none, none, none, some dbContent,
        if copyOk then some dbContent else lastGood⟩)) ∧
    (confirm_transaction tid copyOk ⟨timer, some tid, sidecar, none, lastGood⟩ =
      (true, ⟨none, none, none, none, lastGood⟩)) := by
  constructor
  · unfold confirm_transaction
    rw [if_pos rfl]
    cases copyOk <;> rfl
  · unfold confirm_transaction
    rw [if_pos rfl]

/-- Embedding of `SafetyManager.init`'s durable-state handling.  It receives
the on-disk state found at process start (memory state is fresh: no timer, no
id) and returns the resulting state together with how many times the revert
logic (`_trigger_revert_logic`) ran.  First the baseline bootstrap copies the
database over a missing last-known-good backup; then, if a pending sidecar
record exists, an already-elapsed deadline triggers the revert logic (which
restores the database from the backup when one exists and re-runs the commit
pipeline) followed by clearing the sidecar, while a still-future deadline
resumes the recorded id and arms a timer for the remaining time. -/
def sm_init (now : Int) (db lastGood : Option String)
    (sidecar : Option SidecarState) : SafetyState × Nat :=
  let lastGood1 :=
    match db, lastGood with
    | some d, none => some d
    | _, _ => lastGood
  match sidecar with
  | some s =>
    if s.status = "pending" then
      let remaining := s.expires_at - now
      if remaining ≤ 0 then
        let db1 :=
          match lastGood1 with
          | some lg => some lg
          | none => db
        (⟨none, none, none, db1, lastGood1⟩, 1)
      else
        (⟨some (remaining, s.transaction_id), some s.transaction_id, some s,
          db, lastGood1⟩, 0)
    else (⟨none, none, some s, db, lastGood1⟩, 0)
  | none => (⟨none, none, none, db, lastGood1⟩, 0)

/-- C4: on init with a pending sidecar record — if its deadline has already
elapsed, the revert logic runs exactly once, the sidecar is cleared and no
callback is armed; if it has not elapsed, no revert runs, the pending id is
resumed, the sidecar is kept and a one-shot callback is armed for exactly the
remaining time. -/
theorem sm_init_recovery (now : Int) (db lastGood : Option String)
    (t : String) (e : Int) :
    (e ≤ now →
      (sm_init now db lastGood (some ⟨t, "pending", e⟩)).2 = 1 ∧
      (sm_init now db lastGood (some ⟨t, "pending", e⟩)).1.sidecar = none ∧
      (sm_init now db lastGood (some ⟨t, "pending", e⟩)).1.timer = none) ∧
    (now < e →
      (sm_init now db lastGood (some ⟨t, "pending", e⟩)).2 = 0 ∧
      (sm_init now db lastGood (some ⟨t, "pending", e⟩)).1.transactionId = some t ∧
      (sm_init now db lastGood (some ⟨t, "pending", e⟩)).1.timer = some (e - now, t) ∧
      (sm_init now db lastGood (some ⟨t, "pending", e⟩)).1.sidecar =
        some ⟨t, "pending", e⟩) := by
  constructor
  · intro h
    have hc : e - now ≤ (0:Int) := by omega
    simp [sm_init, hc]
  · intro h
    have hc : ¬ e - now ≤ (0:Int) := by omega
    simp [sm_init, hc]

/- ## CommitOrchestrator (src/backend/app/routes.py, `_perform_commit`) -/

/-- Embedding of Python's `"sep".join(parts)`. -/
def strJoin (sep : String) : List String → String
  | [] => ""
  | [x] => x
  | x :: y :: rest => x ++ sep ++ strJoin sep (y :: rest)

/-- Embedding of the local `get_interface_part` of `_perform_commit`: the
lines of the config preceding the first line that starts with `### begin`,
joined back and stripped of surrounding whitespace. -/
def get_interface_part (content : String) : String :=
  (strJoin "\n" ((content.splitOn "\n").takeWhile
    (fun line => !(line.startsWith "### begin")))).trim

/-- Deployment steps `_perform_commit` can take after rendering, in order:
writing the firewall script (always, with its chmod), then at most one
activation path — a full `restart_service`, a hot `reload_service` followed
by `apply_firewall_rules`, or `apply_firewall_rules` alone. -/
inductive CommitAction where
  | writeRulesScript (content path : String)
  | chmodRules (path : String)
  | restartService (conf path : String)
  | reloadService (conf path : String)
  | applyFirewallRules (content path : String)
deriving DecidableEq

/-- Actions `_perform_commit` performs before any strategy branch: the rules
script is written and made executable first (`PostUp` depends on it). -/
def commitBaseActions (rulesContent rulesPath : String) : List CommitAction :=
  [CommitAction.writeRulesScript rulesContent rulesPath,
   CommitAction.chmodRules rulesPath]

/-- Embedding of the strategy-selection part of `_perform_commit`.
`oldConf`/`oldRules` are the contents of the on-disk previous interface
config and firewall script (`none` when the file does not exist),
`confContent`/`rulesContent` the freshly rendered artifacts.  The three
change flags start `True` and are cleared exactly as in the source; the
result is the returned status string and the ordered list of deployment
actions taken. -/
def perform_commit_plan (oldConf oldRules : Option String)
    (confContent rulesContent : String) (configPath rulesPath : String) :
    String × List CommitAction :=
  let interface_changed :=
    match oldConf with
    | none => true
    | some oc => !(get_interface_part oc == get_interface_part confContent)
  let peers_changed :=
    match oldConf with
    | none => true
    | some oc =>
      if get_interface_part oc == get_interface_part confContent then
        !(oc == confContent)
      else true
  let rules_changed :=
    match oldRules with
    | none => true
    | some orl => !(orl == rulesContent)
  let base := commitBaseActions rulesContent rulesPath
  if interface_changed then
    ("committed (full restart)", base ++ [CommitAction.restartService confContent configPath])
  else if peers_changed then
    ("committed (hot reload)",
     base ++ [CommitAction.reloadService confContent configPath,
              CommitAction.applyFirewallRules rulesContent rulesPath])
  else if rules_changed then
    ("committed (firewall update)",
     base ++ [CommitAction.applyFirewallRules rulesContent rulesPath])
  else ("committed (no changes)", base)

/-- C1: when the on-disk previous interface config (and previous firewall
script) exist, the deployment strategy is exactly the decision table — the
interface part differs: full restart; else the full config text differs: hot
reload plus firewall apply; else only the firewall script text differs:
firewall-only apply; else no activation step beyond the unconditional script
write. -/
theorem perform_commit_plan_decision (oc orl confContent rulesContent
    configPath rulesPath : String) :
    perform_commit_plan (some oc) (some orl) confContent rulesContent
        configPath rulesPath =
      if get_interface_part oc ≠ get_interface_part confContent then
        ("committed (full restart)",
         commitBaseActions rulesContent rulesPath ++
           [CommitAction.restartService confContent configPath])
      else if oc ≠ confContent then
        ("committed (hot reload)",
         commitBaseActions rulesContent rulesPath ++
           [CommitAction.reloadService confContent configPath,
            CommitAction.applyFirewallRules rulesContent rulesPath])
      else if orl ≠ rulesContent then
        ("committed (firewall update)",
         commitBaseActions rulesContent rulesPath ++
           [CommitAction.applyFirewallRules rulesContent rulesPath])
      else ("committed (no changes)", commitBaseActions rulesContent rulesPath) := by
  by_cases h1 : get_interface_part oc = get_interface_part confContent
  · by_cases h2 : oc = confContent
    · by_cases h3 : orl = rulesContent
      · simp [perform_commit_plan, h1, h2, h3]
      · simp [perform_commit_plan, h1, h2, h3]
    · simp [perform_commit_plan, h1, h2]
  · simp [perform_commit_plan, h1]

/- ## Command resolution and execution (src/backend/app/command_utils.py,
src/backend/app/system_service.py) -/

/-- Outcome of one `subprocess.run` call as `SystemService._run_command`
observes it: the process ran and succeeded, the process ran and failed
(`CalledProcessError`), or the executable was missing
(`FileNotFoundError`). -/
inductive RunOutcome where
  | success
  | calledProcessError
  | fileNotFound
deriving DecidableEq

/-- Embedding of `SystemService._run_command`: a failing process raises only
when `check` is set; a missing executable is caught by the
`except FileNotFoundError` arm, which prints and falls through (`pass`), so
the function returns normally. -/
def run_command (outcome : RunOutcome) (check : Bool) : Except String Unit :=
  match outcome with
  | RunOutcome.success => Except.ok ()
  | RunOutcome.calledProcessError =>
    if check then Except.error "CalledProcessError" else Except.ok ()
  | RunOutcome.fileNotFound => Except.ok ()

/-- Embedding of `CommandPathResolver.get_path` on a first (uncached) lookup:
`whichResult` is what `shutil.which` returns, `candidates` the per-tool list
of common install locations paired with whether the `--version` probe of each
accepts it (return code 0 or 1, no exception).  When neither source yields a
path the Python code raises. -/
def get_path (whichResult : Option String)
    (candidates : List (String × Bool)) : Except String String :=
  match whichResult with
  | some p => Except.ok p
  | none =>
    match candidates.find? (fun c => c.2) with
    | some c => Except.ok c.1
    | none => Except.error "Command not found in PATH or common installation locations"

/-- C5 counterexample: an invocation whose executable is missing does not
surface an error — `_run_command` returns success even with `check=True`
(for example `restart_service` step 4 runs `["wg-quick", "up", ...]` with a
bare command name; when the binary is absent the call is silently skipped). -/
theorem run_command_missing_tool_swallowed :
    run_command RunOutcome.fileNotFound true = Except.ok () := rfl

/-- C5 amended: the resolver `get_path` does fail loudly when a tool is
unresolvable (neither on the search path nor a verified common location),
but `SystemService._run_command` catches `FileNotFoundError` and continues,
returning success for every `check` setting, so invocations reaching the
missing executable are skipped rather than reported. -/
theorem tool_resolution_vs_run_command :
    (∀ candidates : List (String × Bool),
      (∀ c ∈ candidates, c.2 = false) →
      get_path none candidates =
        Except.error "Command not found in PATH or common installation locations") ∧
    (∀ check : Bool, run_command RunOutcome.fileNotFound check = Except.ok ()) := by
  constructor
  · intro candidates h
    rw [get_path]
    have : candidates.find? (fun c => c.2) = none := by
      rw [List.find?_eq_none]
      intro c hc
      simp [h c hc]
    rw [this]
  · intro check
    rfl

/- ## Durable file writes (src/backend/app/system_service.py `_write_config`,
src/backend/app/safety_manager.py `_save_state`, `confirm_transaction`)

Each writer is modelled by the trace of file-system operations it performs,
in order. -/

/-- File-system operations the writers perform.  `renameFile` (an
`os.rename`/`os.replace` of a temporary file over the destination) is the
atomic-replace operation; none of the writers ever emits it. -/
inductive FileOp where
  | makeDirs (dir : String)
  | openWrite (path : String)
  | chmodExec (path : String)
  | copyFile (src dst : String)
  | removeFile (path : String)
  | renameFile (src dst : String)
deriving DecidableEq

/-- Embedding of Python's `os.path.dirname` for forward-slash paths. -/
def dirName (path : String) : String :=
  strJoin "/" (path.splitOn "/").dropLast

/-- Sidecar path used by the SafetyManager (relative to the process working
directory, `os.path.join(os.getcwd(), "instance/safety_transaction.json")`). -/
def SIDECAR_PATH : String := "instance/safety_transaction.json"

/-- Database path used by the SafetyManager. -/
def DB_PATH : String := "instance/wireguard.db"

/-- Last-known-good backup path used by the SafetyManager. -/
def LAST_GOOD_DB_PATH : String := "instance/wireguard.db.last_good"

/-- Trace of `SystemService._write_config(content, path)`: create the parent
directory, then open the destination itself for writing and write the
content in place. -/
def write_config_ops (path : String) : List FileOp :=
  [FileOp.makeDirs (dirName path), FileOp.openWrite path]

/-- Trace of `SafetyManager._save_state(...)`: open the sidecar file itself
for writing and `json.dump` the record into it in place. -/
def save_state_ops : List FileOp :=
  [FileOp.openWrite SIDECAR_PATH]

/-- Trace of the promotion step of `SafetyManager.confirm_transaction` when
the database file exists: a direct `shutil.copy2` of the database over the
backup destination. -/
def confirm_promote_ops : List FileOp :=
  [FileOp.copyFile DB_PATH LAST_GOOD_DB_PATH]

/-- Recognizes the atomic-replace (write-temp-then-move) operation. -/
def isAtomicReplace : FileOp → Bool
  | FileOp.renameFile _ _ => true
  | _ => false

/-- C6 counterexample: the sidecar write and the interface-config write each
open their destination file in place and perform no temp-file-then-rename;
the backup promotion is a direct copy onto the destination.  Atomic replace
semantics are used nowhere. -/
theorem durable_writes_not_atomic :
    save_state_ops.contains (FileOp.openWrite SIDECAR_PATH) = true ∧
    save_state_ops.any isAtomicReplace = false ∧
    (write_config_ops "/etc/wireguard/wg0.conf").contains
      (FileOp.openWrite "/etc/wireguard/wg0.conf") = true ∧
    (write_config_ops "/etc/wireguard/wg0.conf").any isAtomicReplace = false ∧
    confirm_promote_ops.any isAtomicReplace = false := by
  decide

/-- C6 amended: every durable write of the core — the interface config and
firewall script (both via `_write_config`), the sidecar record
(`_save_state`) and the last-known-good backup (`shutil.copy2`) — writes the
destination file in place (direct open-and-write, or a direct copy onto the
destination); none uses a temporary file moved over the destination. -/
theorem durable_writes_in_place (path : String) :
    write_config_ops path = [FileOp.makeDirs (dirName path), FileOp.openWrite path] ∧
    save_state_ops = [FileOp.openWrite SIDECAR_PATH] ∧
    confirm_promote_ops = [FileOp.copyFile DB_PATH LAST_GOOD_DB_PATH] ∧
    (write_config_ops path).all (fun op => !isAtomicReplace op) = true ∧
    save_state_ops.all (fun op => !isAtomicReplace op) = true ∧
    confirm_promote_ops.all (fun op => !isAtomicReplace op) = true := by
  refine ⟨rfl, rfl, rfl, ?_, rfl, rfl⟩
  rfl

/- ## Domain model (src/backend/app/models.py)

Only the fields the renderer reads.  The SQLAlchemy relationships become
embedded lists; a network's parsed network address
(`str(ipaddress.ip_network(cidr).network_address)`) is carried alongside the
raw `cidr` string, since `IPManager.get_client_ip` substitutes into that
dotted string. -/

/-- Route row: traffic for `target_cidr` is routed via the owning client. -/
structure Route where
  target_cidr : String
deriving DecidableEq

/-- Network row. -/
structure Network where
  name : String
  cidr : String
  networkAddress : String
  interface_address : String
deriving DecidableEq

/-- Client row with its relationship lists. -/
structure Client where
  id : Nat
  name : String
  public_key : String
  private_key : String
  preshared_key : Option String
  octet : Nat
  keepalive : Option Nat
  enabled : Bool
  dns_mode : String
  dns_servers : Option String
  networks : List Network
  routes : List Route
deriving DecidableEq

/-- AccessRule row. -/
structure AccessRule where
  id : Nat
  source_client_id : Option Nat
  dest_client_id : Option Nat
  dest_cidr : Option String
  destination_type : String
  port : Option Nat
  proto : String
  action : String
deriving DecidableEq

/-- Python truthiness of an optional integer column (`None` and `0` are
falsy). -/
def optNatTruthy : Option Nat → Bool
  | none => false
  | some n => n != 0

/-- Python truthiness of an optional string column (`None` and `""` are
falsy). -/
def optStrTruthy : Option String → Bool
  | none => false
  | some s => s != ""

/-- Embedding of `IPManager.get_client_ip`: split the network address on
`.`, replace the last part by the client's octet in decimal, join back and
suffix `/32`. -/
def get_client_ip (network : Network) (client : Client) : String :=
  strJoin "." ((network.networkAddress.splitOn ".").dropLast ++
    [toString client.octet]) ++ "/32"

/- ## ConfigRenderer.render_iptables_commands
(src/backend/app/config_renderer.py) -/

/-- Sort key used on access rules: `0 if r.action == 'DROP' else 1`. -/
def ruleSortKey (r : AccessRule) : Nat :=
  if r.action == "DROP" then 0 else 1

/-- Commands a single rule contributes to the up list, in emission order:
the source addresses are the source client's tunnel addresses across its
networks (or the single unspecified entry when no source client is set; or
nothing when the referenced client is not found), likewise for the
destination with a literal CIDR alternative, and one `-A WG_ACCESS_TEMP`
command is emitted per source×destination pair with the optional protocol
and port matches and the terminal `-j` action. -/
def rule_commands (clients : List Client) (rule : AccessRule) : List String :=
  let source_ips : List (Option String) :=
    if optNatTruthy rule.source_client_id then
      match clients.find? (fun c => some c.id == rule.source_client_id) with
      | some src_client =>
        src_client.networks.map (fun net => some (get_client_ip net src_client))
      | none => []
    else [none]
  let dest_ips : List (Option String) :=
    if optNatTruthy rule.dest_client_id then
      match clients.find? (fun c => some c.id == rule.dest_client_id) with
      | some dest_client =>
        dest_client.networks.map (fun net => some (get_client_ip net dest_client))
      | none => []
    else if optStrTruthy rule.dest_cidr then [rule.dest_cidr]
    else [none]
  source_ips.flatMap (fun src_ip =>
    dest_ips.map (fun d_ip =>
      let cmd_parts :=
        ["-A WG_ACCESS_TEMP", "-i wg0"]
        ++ (match src_ip with
            | some s => if s != "" then ["-s " ++ s] else []
            | none => [])
        ++ (match d_ip with
            | some d => if d != "" then ["-d " ++ d] else []
            | none => [])
        ++ (if rule.proto != "" && rule.proto != "all" then
              ["-p " ++ rule.proto] else [])
        ++ (if optNatTruthy rule.port && (rule.proto == "tcp" || rule.proto == "udp") then
              ["--dport " ++ toString (rule.port.getD 0)] else [])
        ++ ["-j " ++ rule.action]
      "iptables " ++ strJoin " " cmd_parts))

/-- Global setup commands emitted before the per-rule commands: FORWARD
policy, idempotent conntrack accept, create-or-flush of the temp chain. -/
def iptables_up_setup : List String :=
  ["iptables -P FORWARD DROP",
   "iptables -C FORWARD -m conntrack --ctstate RELATED,ESTABLISHED -j ACCEPT 2>/dev/null || iptables -I FORWARD -m conntrack --ctstate RELATED,ESTABLISHED -j ACCEPT",
   "iptables -N WG_ACCESS_TEMP 2>/dev/null || iptables -F WG_ACCESS_TEMP"]

/-- Atomic chain-swap commands emitted after the per-rule commands. -/
def iptables_up_swap : List String :=
  ["iptables -I FORWARD -j WG_ACCESS_TEMP",
   "iptables -D FORWARD -j WG_ACCESS_CONTROL 2>/dev/null || true",
   "iptables -F WG_ACCESS_CONTROL 2>/dev/null || true",
   "iptables -X WG_ACCESS_CONTROL 2>/dev/null || true",
   "iptables -E WG_ACCESS_TEMP WG_ACCESS_CONTROL"]

/-- PostDown command list. -/
def iptables_down_commands : List String :=
  ["iptables -D FORWARD -j WG_ACCESS_CONTROL 2>/dev/null || true",
   "iptables -F WG_ACCESS_CONTROL 2>/dev/null || true",
   "iptables -X WG_ACCESS_CONTROL 2>/dev/null || true",
   "iptables -P FORWARD ACCEPT"]

/-- Embedding of `ConfigRenderer.render_iptables_commands`: Python's
`sorted(rules, key=lambda r: 0 if r.action == 'DROP' else 1)` is a stable
sort, modelled by `List.mergeSort` on the same key; the `networks` argument
is taken but never read, as in the source. -/
def render_iptables_commands (networks : List Network) (clients : List Client)
    (rules : List AccessRule) : List String × List String :=
  let sorted_rules := rules.mergeSort (fun a b => ruleSortKey a ≤ ruleSortKey b)
  (iptables_up_setup ++ sorted_rules.flatMap (rule_commands clients) ++ iptables_up_swap,
   iptables_down_commands)

/-- Stable sort with a two-valued key is exactly: the key-0 elements in
input order, then the rest in input order. -/
theorem mergeSort_two_bucket {α : Type} (key : α → Nat) (hkey : ∀ a, key a ≤ 1) :
    ∀ l : List α,
      l.mergeSort (fun a b => key a ≤ key b) =
        l.filter (fun a => key a == 0) ++ l.filter (fun a => !(key a == 0)) := by
  have trans : ∀ (x y z : α), (fun a b => decide (key a ≤ key b)) x y →
      (fun a b => decide (key a ≤ key b)) y z → (fun a b => decide (key a ≤ key b)) x z := by
    intro x y z h1 h2
    simp only [decide_eq_true_eq] at *
    omega
  have total : ∀ (x y : α),
      ((fun a b => decide (key a ≤ key b)) x y || (fun a b => decide (key a ≤ key b)) y x) = true := by
    intro x y
    simp only [Bool.or_eq_true, decide_eq_true_eq]
    omega
  intro l
  induction l with
  | nil => simp
  | cons a l ih =>
    obtain ⟨l₁, l₂, h1, h2, h3⟩ := List.mergeSort_cons trans total a l
    by_cases ha : key a = 0
    · have hl₁ : l₁ = [] := by
        cases l₁ with
        | nil => rfl
        | cons b t =>
          have hb := h3 b (List.mem_cons_self b t)
          simp only [Bool.not_eq_true', decide_eq_false_iff_not] at hb
          omega
      subst hl₁
      rw [List.nil_append] at h1 h2
      rw [h1]
      have hl₂ : l₂ = l.filter (fun x => key x == 0) ++ l.filter (fun x => !(key x == 0)) := by
        rw [← h2, ih]
      have hpa : (key a == 0) = true := by simpa using ha
      rw [hl₂, List.filter_cons, List.filter_cons, hpa]
      simp
    · have ha1 : key a = 1 := by have := hkey a; omega
      have hmem1 : ∀ b ∈ l₁, key b = 0 := by
        intro b hb
        have hineq := h3 b hb
        simp only [Bool.not_eq_true', decide_eq_false_iff_not] at hineq
        have := hkey b
        omega
      have hsorted := List.sorted_mergeSort trans total (a :: l)
      rw [h1] at hsorted
      have hmem2 : ∀ b ∈ l₂, key b = 1 := by
        intro b hb
        have hpair := (List.pairwise_append.mp hsorted).2.1
        have hle := (List.pairwise_cons.mp hpair).1 b hb
        simp only [decide_eq_true_eq] at hle
        have := hkey b
        omega
      have happ : l₁ ++ l₂ =
          l.filter (fun x => key x == 0) ++ l.filter (fun x => !(key x == 0)) := by
        rw [← h2, ih]
      have hlen : l₁.length = (l.filter (fun x => key x == 0)).length := by
        have c1 : (l₁ ++ l₂).countP (fun x => key x == 0) = l₁.length := by
          rw [List.countP_append]
          have e1 : l₁.countP (fun x => key x == 0) = l₁.length :=
            List.countP_eq_length.mpr (fun b hb => by simp [hmem1 b hb])
          have e2 : l₂.countP (fun x => key x == 0) = 0 :=
            List.countP_eq_zero.mpr (fun b hb => by simp [hmem2 b hb])
          omega
        have c2 : (l.filter (fun x => key x == 0) ++ l.filter (fun x => !(key x == 0))).countP
            (fun x => key x == 0) = (l.filter (fun x => key x == 0)).length := by
          rw [List.countP_append]
          have e1 : (l.filter (fun x => key x == 0)).countP (fun x => key x == 0) =
              (l.filter (fun x => key x == 0)).length :=
            List.countP_eq_length.mpr (fun b hb => (List.mem_filter.mp hb).2)
          have e2 : (l.filter (fun x => !(key x == 0))).countP (fun x => key x == 0) = 0 := by
            refine List.countP_eq_zero.mpr (fun b hb => ?_)
            have := (List.mem_filter.mp hb).2
            simp only [Bool.not_eq_true'] at this
            simp [this]
          omega
        rw [happ] at c1
        omega
      obtain ⟨e1, e2⟩ := List.append_inj happ hlen
      have hpa : (key a == 0) = false := by simpa using ha
      rw [h1, e1, e2, List.filter_cons, List.filter_cons, hpa]
      simp

/-- C2: when every rule's action is ACCEPT or DROP, the up-command list is
exactly the setup commands, then all commands generated from DROP rules in
input order, then all commands generated from ACCEPT rules in input order,
then the swap commands: every `-A WG_ACCESS_TEMP` command from a DROP rule
precedes every one from an ACCEPT rule, and each action group keeps the
input's relative order. -/
theorem render_iptables_commands_drop_first (networks : List Network)
    (clients : List Client) (rules : List AccessRule)
    (h : ∀ r ∈ rules, r.action = "ACCEPT" ∨ r.action = "DROP") :
    (render_iptables_commands networks clients rules).1 =
      iptables_up_setup ++
        ((rules.filter (fun r => r.action == "DROP")).flatMap (rule_commands clients) ++
         (rules.filter (fun r => r.action == "ACCEPT")).flatMap (rule_commands clients)) ++
      iptables_up_swap := by
  have hsort := mergeSort_two_bucket ruleSortKey
    (fun r => by rw [ruleSortKey]; split <;> omega) rules
  have e0 : rules.filter (fun r => ruleSortKey r == 0) =
      rules.filter (fun r => r.action == "DROP") := by
    apply List.filter_congr
    intro r _
    cases hd : r.action == "DROP" <;> simp [ruleSortKey, hd]
  have e1 : rules.filter (fun r => !(ruleSortKey r == 0)) =
      rules.filter (fun r => r.action == "ACCEPT") := by
    apply List.filter_congr
    intro r hr
    rcases h r hr with ha | ha <;> simp [ruleSortKey, ha]
  simp only [render_iptables_commands]
  rw [hsort, e0, e1, List.flatMap_append]

/-- C2 witness rule that plays the ACCEPT role (listed first in the input). -/
def c2_rule_accept : AccessRule :=
  { id := 1, source_client_id := none, dest_client_id := none,
    dest_cidr := some "8.8.8.8/32", destination_type := "host",
    port := some 53, proto := "udp", action := "ACCEPT" }

/-- C2 witness rule that plays the DROP role (listed second in the input). -/
def c2_rule_drop : AccessRule :=
  { id := 2, source_client_id := none, dest_client_id := none,
    dest_cidr := none, destination_type := "host",
    port := none, proto := "all", action := "DROP" }

/-- C2 witness: the theorem applied to a concrete two-rule input in which an
ACCEPT rule precedes a DROP rule. -/
theorem render_iptables_commands_drop_first_witness :
    (render_iptables_commands [] [] [c2_rule_accept, c2_rule_drop]).1 =
      iptables_up_setup ++
        ((([c2_rule_accept, c2_rule_drop].filter
            (fun r => r.action == "DROP")).flatMap (rule_commands []) ++
          ([c2_rule_accept, c2_rule_drop].filter
            (fun r => r.action == "ACCEPT")).flatMap (rule_commands []))) ++
      iptables_up_swap :=
  render_iptables_commands_drop_first [] [] [c2_rule_accept, c2_rule_drop]
    (by decide)

/- ## ConfigRenderer.render_client_config
(src/backend/app/config_renderer.py) -/

/-- String of an optional preshared key as Python's f-string interpolation
prints it (`None` for a missing key). -/
def preshared_str (client : Client) : String :=
  match client.preshared_key with
  | some s => s
  | none => "None"

/-- Address line value: the comma-joined per-network tunnel addresses, or
the fallback when the client belongs to no network. -/
def address_string (client : Client) : String :=
  let addresses := client.networks.map (fun net => get_client_ip net client)
  if addresses ≠ [] then strJoin ", " addresses else "10.0.0.0/32"

/-- DNS line (with trailing newline) or empty, by dns_mode: `default` joins
each network's gateway (the interface address up to the `/`), `custom` emits
the stored list when truthy, anything else emits nothing. -/
def dns_line_of (client : Client) : String :=
  if client.dns_mode == "default" then
    let dns_servers :=
      client.networks.map (fun net => (net.interface_address.splitOn "/").headD "")
    if dns_servers ≠ [] then "DNS = " ++ strJoin ", " dns_servers ++ "\n" else ""
  else if client.dns_mode == "custom" && optStrTruthy client.dns_servers then
    "DNS = " ++ client.dns_servers.getD "" ++ "\n"
  else ""

/-- Router-mode PostUp one-liner for one owned CIDR. -/
def routerUpCmd (cidr : String) : String :=
  "iface=$(ip -o addr show to " ++ cidr ++
    " | awk '\x7bprint $2\x7d' | head -1); if [ -n \"$iface\" ]; then iptables -t nat -A POSTROUTING -o $iface -j MASQUERADE; iptables -A FORWARD -i %i -o $iface -j ACCEPT; iptables -A FORWARD -i $iface -o %i -m state --state RELATED,ESTABLISHED -j ACCEPT; fi"

/-- Router-mode PostDown one-liner for one owned CIDR. -/
def routerDownCmd (cidr : String) : String :=
  "iface=$(ip -o addr show to " ++ cidr ++
    " | awk '\x7bprint $2\x7d' | head -1); if [ -n \"$iface\" ]; then iptables -t nat -D POSTROUTING -o $iface -j MASQUERADE; iptables -D FORWARD -i %i -o $iface -j ACCEPT; iptables -D FORWARD -i $iface -o %i -m state --state RELATED,ESTABLISHED -j ACCEPT; fi"

/-- CIDRs of the routes this client owns. -/
def own_routes_of (client : Client) : List String :=
  client.routes.map (fun r => r.target_cidr)

/-- PostUp block: the forwarding sysctl plus one router one-liner per owned
CIDR, each prefixed `PostUp = `, joined by newlines; empty without owned
routes. -/
def post_up_block_of (client : Client) : String :=
  let post_up_cmds :=
    if own_routes_of client ≠ [] then
      "sysctl -w net.ipv4.ip_forward=1" :: (own_routes_of client).map routerUpCmd
    else []
  strJoin "\n" (post_up_cmds.map (fun cmd => "PostUp = " ++ cmd))

/-- PostDown block, symmetric to the PostUp block (without the sysctl). -/
def post_down_block_of (client : Client) : String :=
  let post_down_cmds :=
    if own_routes_of client ≠ [] then (own_routes_of client).map routerDownCmd
    else []
  strJoin "\n" (post_down_cmds.map (fun cmd => "PostDown = " ++ cmd))

/-- The AllowedIPs value list: the client's networks' CIDRs, then each
other-client route CIDR appended unless already present (the Python loop
checks membership against the growing list). -/
def allowed_ips_list (client : Client) (other_routes : List String) : List String :=
  other_routes.foldl
    (fun acc cidr => if cidr ∉ acc then acc ++ [cidr] else acc)
    (client.networks.map (fun n => n.cidr))

/-- AllowedIPs line value: comma-joined list, or the all-traffic fallback
when the list is empty. -/
def allowed_ips_string (client : Client) (other_routes : List String) : String :=
  let ips := allowed_ips_list client other_routes
  if ips ≠ [] then strJoin ", " ips else "0.0.0.0/0"

/-- PersistentKeepalive line (with trailing newline) or empty. -/
def pka_line_of (client : Client) : String :=
  if optNatTruthy client.keepalive then
    "PersistentKeepalive = " ++ toString (client.keepalive.getD 0) ++ "\n"
  else ""

/-- The `[Interface]` section lines: the fixed header, private key and
address lines, then the DNS line (stripped) and the PostUp/PostDown blocks,
each included only when non-empty. -/
def client_sections (client : Client) : List String :=
  ["[Interface]", "PrivateKey = " ++ client.private_key,
   "Address = " ++ address_string client]
  ++ (if dns_line_of client != "" then [(dns_line_of client).trim] else [])
  ++ (if post_up_block_of client != "" then [post_up_block_of client] else [])
  ++ (if post_down_block_of client != "" then [post_down_block_of client] else [])

/-- Embedding of `ConfigRenderer.render_client_config`: the newline-joined
interface section followed by the `[Peer]` block f-string (whose
`PresharedKey` interpolates `None` when absent, and which ends with the
keepalive line or nothing). -/
def render_client_config (client : Client) (server_public_key server_endpoint : String)
    (other_routes : List String) : String :=
  strJoin "\n" (client_sections client) ++
    ("\n\n[Peer]\nPublicKey = " ++ server_public_key ++
     "\nEndpoint = " ++ server_endpoint ++
     "\nAllowedIPs = " ++ allowed_ips_string client other_routes ++
     "\nPresharedKey = " ++ preshared_str client ++
     "\n" ++ pka_line_of client)

/-- The text `piece` occurs contiguously in `s`. -/
def strOccurs (s piece : String) : Prop :=
  ∃ pre post, s = pre ++ piece ++ post

theorem strOccurs_append_left (s t piece : String) (h : strOccurs s piece) :
    strOccurs (s ++ t) piece := by
  obtain ⟨pre, post, h⟩ := h
  exact ⟨pre, post ++ t, by rw [h]; simp [String.append_assoc]⟩

theorem strOccurs_append_right (s t piece : String) (h : strOccurs t piece) :
    strOccurs (s ++ t) piece := by
  obtain ⟨pre, post, h⟩ := h
  exact ⟨s ++ pre, post, by rw [h]; simp [String.append_assoc]⟩

theorem strOccurs_self (piece : String) : strOccurs piece piece :=
  ⟨"", "", by simp⟩

theorem strOccurs_strJoin (sep : String) (l : List String) (piece : String)
    (hm : piece ∈ l) : strOccurs (strJoin sep l) piece := by
  induction l with
  | nil => cases hm
  | cons x t ih =>
    cases t with
    | nil =>
      have : piece = x := by simpa using hm
      subst this
      exact strOccurs_self piece
    | cons y t' =>
      rcases List.mem_cons.mp hm with rfl | hmem
      · exact strOccurs_append_left _ _ _
          (strOccurs_append_left _ _ _ (strOccurs_self piece))
      · exact strOccurs_append_right _ _ _ (ih hmem)

/-- C10: a client in no networks still renders, with the fallback address
line `Address = 10.0.0.0/32` occurring in the output; and whenever the
computed AllowedIPs list (the client's networks' CIDRs plus the supplied
other-client routes) is empty, the output contains
`AllowedIPs = 0.0.0.0/0`. -/
theorem render_client_config_fallbacks (client : Client)
    (server_public_key server_endpoint : String) (other_routes : List String) :
    (client.networks = [] →
      strOccurs (render_client_config client server_public_key server_endpoint other_routes)
        "Address = 10.0.0.0/32") ∧
    (allowed_ips_list client other_routes = [] →
      strOccurs (render_client_config client server_public_key server_endpoint other_routes)
        "AllowedIPs = 0.0.0.0/0") := by
  constructor
  · intro hnet
    have haddr : address_string client = "10.0.0.0/32" := by
      simp [address_string, hnet]
    have hm : ("Address = 10.0.0.0/32" : String) ∈ client_sections client := by
      simp only [client_sections]
      rw [haddr]
      apply List.mem_append_left
      have : ("Address = " ++ "10.0.0.0/32" : String) = "Address = 10.0.0.0/32" := rfl
      rw [this]
      simp
    simp only [render_client_config]
    exact strOccurs_append_left _ _ _ (strOccurs_strJoin _ _ _ hm)
  · intro hips
    have hstr : allowed_ips_string client other_routes = "0.0.0.0/0" := by
      simp [allowed_ips_string, hips]
    simp only [render_client_config]
    rw [hstr]
    apply strOccurs_append_right
    apply strOccurs_append_left
    apply strOccurs_append_left
    apply strOccurs_append_left
    apply strOccurs_append_left
    refine ⟨("\n\n[Peer]\nPublicKey = " ++ server_public_key ++
      "\nEndpoint = " ++ server_endpoint) ++ "\n", "", ?_⟩
    rw [String.append_empty]
    simp only [String.append_assoc]
    rfl
